import Mathlib

/-!
Verification of the polymarket-trading-bot core against its specification.

Shallow embedding of the relevant source modules:
  * `src/core/spike_detector.py`   (SpikeDetector)
  * `src/core/connection_pool.py`  (ConnectionPool, the spec's HealthMonitor)
  * `src/core/market_scanner.py`   (MultiMarketScanner, the spec's EntityScanner)
  * `src/core/websocket_manager.py` (WebSocketManager, the spec's StreamConnection)
  * `src/strategy_orchestrator.py` (StrategyOrchestrator.run_cycle, phase 2)

Real-valued quantities of the Python source (prices, timestamps, seconds) are
modeled over `ℤ`/`ℚ`; calls to `time.time()` / `datetime.now()` become explicit
`now` parameters threaded through the operations.
-/

namespace SpikeDetectorM

/-- One entry of `SpikeDetector.price_history`: the dict
`\x7b'price': price, 'timestamp': timestamp\x7d` appended by `add_price`. -/
structure Sample where
  price : ℤ
  ts : ℤ
  deriving Repr, DecidableEq

/-- The mutable state of `SpikeDetector.__init__`. `price_history` is the
deque (oldest first, `maxlen = history_size`). -/
structure Detector where
  minMove : ℤ
  timeWindowMin : ℤ
  timeWindowMax : ℤ
  cooldownSeconds : ℤ
  historySize : ℕ
  priceHistory : List Sample
  lastSpikeTime : ℤ
  spikeCount : ℕ
  deriving Repr, DecidableEq

/-- `SpikeDetector(min_move, time_window_min, time_window_max,
cooldown_seconds, history_size)`: fresh detector state. -/
def mkDetector (minMove timeWindowMin timeWindowMax cooldownSeconds : ℤ)
    (historySize : ℕ) : Detector :=
  { minMove := minMove
    timeWindowMin := timeWindowMin
    timeWindowMax := timeWindowMax
    cooldownSeconds := cooldownSeconds
    historySize := historySize
    priceHistory := []
    lastSpikeTime := 0
    spikeCount := 0 }

/-- `SpikeDetector.add_price(price, timestamp)`: append to the bounded deque,
evicting from the left once `maxlen` is exceeded. -/
def addPrice (d : Detector) (price ts : ℤ) : Detector :=
  let h := d.priceHistory ++ [⟨price, ts⟩]
  { d with priceHistory := h.drop (h.length - d.historySize) }

/-- The spike-info dict built by `SpikeDetector.detect_spike` on detection. -/
structure SpikeInfo where
  direction : String
  priceChange : ℤ
  priceChangePct : ℚ
  oldPrice : ℤ
  newPrice : ℤ
  timeWindow : ℤ
  detectionTime : ℤ
  spikeId : ℤ
  deriving Repr

/-- `SpikeDetector.detect_spike()`.  `now` stands for `time.time()` at the
call.  Returns the emitted spike info (if any) together with the updated
detector state; the state changes only when a spike is emitted
(`last_spike_time := now`, `spike_count += 1`). -/
def detectSpike (d : Detector) (now : ℤ) : Option SpikeInfo × Detector :=
  if now - d.lastSpikeTime < d.cooldownSeconds then (none, d)
  else if d.priceHistory.length < 2 then (none, d)
  else
    let current := d.priceHistory.getLastD ⟨0, 0⟩
    match (d.priceHistory.dropLast.reverse).find? (fun e =>
        decide (d.timeWindowMin ≤ current.ts - e.ts) &&
        decide (current.ts - e.ts ≤ d.timeWindowMax)) with
    | none => (none, d)
    | some past =>
      let priceChange := current.price - past.price
      if d.minMove ≤ |priceChange| then
        let info : SpikeInfo :=
          { direction := if 0 < priceChange then "up" else "down"
            priceChange := priceChange
            priceChangePct := (priceChange : ℚ) / (past.price : ℚ) * 100
            oldPrice := past.price
            newPrice := current.price
            timeWindow := current.ts - past.ts
            detectionTime := current.ts
            spikeId := current.ts }
        (some info,
          { d with lastSpikeTime := now, spikeCount := d.spikeCount + 1 })
      else (none, d)

/-- Modelled from the spec: "some pair of samples within the configured
time-window band has abs delta-value at least min_move" — the existential the
spec's testable property quantifies over (claim C1).  Stated over the current
price history. -/
def specInBandPairExists (d : Detector) : Bool :=
  d.priceHistory.any (fun a => d.priceHistory.any (fun b =>
    decide (d.timeWindowMin ≤ b.ts - a.ts) &&
    decide (b.ts - a.ts ≤ d.timeWindowMax) &&
    decide (d.minMove ≤ |b.price - a.price|)))

/-- An interaction with the detector: an `add_price` call or a `detect_spike`
call (the latter carrying the wall-clock time of the call). -/
inductive DEvent where
  | add (price ts : ℤ)
  | det (now : ℤ)

/-- Run a sequence of `add_price` / `detect_spike` calls, collecting every
emitted spike together with the wall-clock time of the `detect_spike` call
that emitted it. -/
def runDetector (d : Detector) : List DEvent → Detector × List (ℤ × SpikeInfo)
  | [] => (d, [])
  | DEvent.add p ts :: rest => runDetector (addPrice d p ts) rest
  | DEvent.det now :: rest =>
    match detectSpike d now with
    | (none, d') => runDetector d' rest
    | (some info, d') =>
      let (dEnd, out) := runDetector d' rest
      (dEnd, (now, info) :: out)

end SpikeDetectorM

namespace ConnectionPoolM

/-- `ConnectionState` of `src/core/connection_pool.py`. -/
inductive ConnState where
  | healthy
  | degraded
  | unhealthy
  | circuitOpen
  deriving Repr, DecidableEq

/-- The per-connection dict stored in `ConnectionPool.connections[name]`. -/
structure ConnInfo where
  registeredAt : ℤ
  lastCheck : ℤ
  errorCount : ℕ
  latencySamples : List ℚ
  deriving Repr

/-- The mutable state of `ConnectionPool.__init__`. -/
structure Pool where
  latencyThresholdMs : ℚ
  errorThreshold : ℕ
  circuitTimeout : ℤ
  connections : List (String × ConnInfo)
  errorCount : ℕ
  circuitOpenedAt : ℤ
  state : ConnState

/-- `ConnectionPool(latency_threshold_ms, error_threshold, circuit_timeout)`. -/
def mkPool (latencyThresholdMs : ℚ) (errorThreshold : ℕ) (circuitTimeout : ℤ) : Pool :=
  { latencyThresholdMs := latencyThresholdMs
    errorThreshold := errorThreshold
    circuitTimeout := circuitTimeout
    connections := []
    errorCount := 0
    circuitOpenedAt := 0
    state := ConnState.healthy }

/-- `ConnectionPool.register_connection(name, connection)` (`now` is
`time.time()`; the connection object itself is opaque and omitted). -/
def registerConnection (p : Pool) (name : String) (now : ℤ) : Pool :=
  { p with connections :=
      (name, { registeredAt := now, lastCheck := 0, errorCount := 0,
               latencySamples := [] }) ::
        p.connections.filter (fun c => c.1 ≠ name) }

/-- Update the entry for `name` in the connections dict, when present. -/
def updateConn (cs : List (String × ConnInfo)) (name : String)
    (f : ConnInfo → ConnInfo) : List (String × ConnInfo) :=
  cs.map (fun c => if c.1 = name then (c.1, f c.2) else c)

/-- `ConnectionPool._open_circuit()`. -/
def openCircuit (p : Pool) (now : ℤ) : Pool :=
  if p.state ≠ ConnState.circuitOpen then
    { p with state := ConnState.circuitOpen, circuitOpenedAt := now }
  else p

/-- `ConnectionPool._update_state()`. -/
def updateState (p : Pool) (now : ℤ) : Pool :=
  if p.state = ConnState.circuitOpen then
    if p.circuitTimeout < now - p.circuitOpenedAt then
      { p with state := ConnState.degraded, errorCount := 0 }
    else p
  else if p.errorThreshold ≤ p.errorCount then openCircuit p now
  else if 0 < p.errorCount then { p with state := ConnState.degraded }
  else { p with state := ConnState.healthy }

/-- `ConnectionPool.record_success(name)`. -/
def recordSuccess (p : Pool) (name : String) (now : ℤ) : Pool :=
  let conns :=
    if (p.connections.lookup name).isSome then
      updateConn p.connections name
        (fun ci => { ci with errorCount := 0, lastCheck := now })
    else p.connections
  let p1 := { p with connections := conns }
  let p2 := if 0 < p1.errorCount
    then { p1 with errorCount := p1.errorCount - 1 } else p1
  updateState p2 now

/-- `ConnectionPool.record_error(name)`. -/
def recordError (p : Pool) (name : String) (now : ℤ) : Pool :=
  let conns :=
    if (p.connections.lookup name).isSome then
      updateConn p.connections name
        (fun ci => { ci with errorCount := ci.errorCount + 1, lastCheck := now })
    else p.connections
  let p1 := { p with connections := conns }
  let p2 := { p1 with errorCount := p1.errorCount + 1 }
  let p3 := updateState p2 now
  if p3.errorThreshold ≤ p3.errorCount then openCircuit p3 now else p3

/-- `ConnectionPool.record_latency(name, latency_ms)`: append to the 100-deep
sample list and possibly degrade a healthy pool on high average latency. -/
def recordLatency (p : Pool) (name : String) (latencyMs : ℚ) : Pool :=
  match p.connections.lookup name with
  | none => p
  | some ci =>
    let samples := ci.latencySamples ++ [latencyMs]
    let samples := if 100 < samples.length then samples.drop 1 else samples
    let conns :=
      updateConn p.connections name (fun c => { c with latencySamples := samples })
    let p1 := { p with connections := conns }
    let avg := samples.sum / (samples.length : ℚ)
    if p.latencyThresholdMs < avg then
      if p1.state = ConnState.healthy
      then { p1 with state := ConnState.degraded } else p1
    else p1

/-- `ConnectionPool.is_healthy()`. -/
def isHealthy (p : Pool) : Bool :=
  p.state = ConnState.healthy || p.state = ConnState.degraded

/-- `ConnectionPool.can_execute()`: pure function of the stored state — it
takes no time parameter and performs no state update. -/
def canExecute (p : Pool) : Bool :=
  p.state ≠ ConnState.circuitOpen

end ConnectionPoolM

namespace MarketScannerM

/-- Python `needle in hay` on lists of characters. -/
def subSeq (needle : List Char) : List Char → Bool
  | [] => needle.isEmpty
  | c :: t => needle.isPrefixOf (c :: t) || subSeq needle t

/-- Python `needle in hay` on strings. -/
def strIn (needle hay : String) : Bool :=
  subSeq needle.toList hay.toList

/-- Python `str.lower()` (character-list form of `String.map`). -/
def lowerStr (s : String) : String :=
  String.mk (s.data.map Char.toLower)

/-- Python truthiness of an optional string (`None` and `""` are falsy). -/
def strTruthy : Option String → Bool
  | none => false
  | some s => ¬ s.isEmpty

/-- One entry of the `tokens` array of a catalog market record. -/
structure Token where
  outcome : String
  tokenId : Option String
  deriving Repr, DecidableEq

/-- A market record returned by the Gamma API catalog.  `end_date_iso` is
modeled as the already-parsed epoch value `_get_end_timestamp` computes from
it (ISO-8601 string parsing is external I/O and abstracted away); `None`
stands both for a missing field and an unparseable one. -/
structure Market where
  id : String
  question : String
  description : String
  slug : String
  endDateIso : Option ℤ
  tokens : List Token
  clobTokenIds : List String
  deriving Repr, DecidableEq

/-- The mutable state of `MultiMarketScanner.__init__`.  `active_markets` and
`market_tokens` are insertion-ordered dicts, modeled as association lists. -/
structure Scanner where
  keywords : List String
  excludeKeywords : List String
  maxMarkets : ℕ
  scanInterval : ℤ
  minTimeRemaining : ℤ
  activeMarkets : List (String × Market)
  marketTokens : List (String × (Option String × Option String))
  lastScanTime : ℤ
  deriving Repr, DecidableEq

/-- `MultiMarketScanner(gamma_api_url, keywords, exclude_keywords,
max_markets, scan_interval, min_time_remaining)` (the API URL and HTTP
session are external I/O and omitted).  Keywords are lowercased at
construction. -/
def mkScanner (keywords excludeKeywords : List String) (maxMarkets : ℕ)
    (scanInterval minTimeRemaining : ℤ) : Scanner :=
  { keywords := keywords.map lowerStr
    excludeKeywords := excludeKeywords.map lowerStr
    maxMarkets := maxMarkets
    scanInterval := scanInterval
    minTimeRemaining := minTimeRemaining
    activeMarkets := []
    marketTokens := []
    lastScanTime := 0 }

/-- `MultiMarketScanner._matches_criteria(market)`. -/
def matchesCriteria (st : Scanner) (m : Market) : Bool :=
  let combined :=
    lowerStr m.question ++ " " ++ lowerStr m.description ++ " " ++ lowerStr m.slug
  (st.keywords.any (fun kw => strIn kw combined)) &&
    ¬ (st.excludeKeywords.any (fun kw => strIn kw combined))

/-- `MultiMarketScanner._get_end_timestamp(market)`. -/
def getEndTimestamp (m : Market) : Option ℤ :=
  m.endDateIso

/-- `MultiMarketScanner._has_sufficient_time(market)`; `now` is
`datetime.now().timestamp()`.  An absent end timestamp — and, through
Python truthiness, the epoch value `0` — yields `False`. -/
def hasSufficientTime (st : Scanner) (m : Market) (now : ℤ) : Bool :=
  match getEndTimestamp m with
  | none => false
  | some e => if e = 0 then false else decide (st.minTimeRemaining < e - now)

/-- `MultiMarketScanner._extract_tokens(market)`. -/
def extractTokens (m : Market) : Option String × Option String :=
  match m.tokens with
  | t0 :: t1 :: _ =>
    let step := fun (acc : Option String × Option String) (t : Token) =>
      let outcome := lowerStr t.outcome
      if strIn "yes" outcome || strIn "up" outcome || strIn "higher" outcome then
        (t.tokenId, acc.2)
      else if strIn "no" outcome || strIn "down" outcome || strIn "lower" outcome then
        (acc.1, t.tokenId)
      else acc
    let yn := m.tokens.foldl step (none, none)
    if ¬ strTruthy yn.1 || ¬ strTruthy yn.2 then (t0.tokenId, t1.tokenId) else yn
  | _ =>
    match m.clobTokenIds with
    | c0 :: c1 :: _ => (some c0, some c1)
    | _ => (none, none)

/-- The market-filtering loop of `MultiMarketScanner.scan_markets`, over the
list of catalog records the API returned: skip already-tracked ids, apply the
criteria / remaining-time / token filters, register survivors in both
registries, and break out as soon as `len(active_markets) >= max_markets`
after a registration. -/
def scanGo (st : Scanner) (now : ℤ) (acc : List Market) :
    List Market → Scanner × List Market
  | [] => (st, acc)
  | m :: rest =>
    if (st.activeMarkets.lookup m.id).isSome then scanGo st now acc rest
    else if ¬ matchesCriteria st m then scanGo st now acc rest
    else if ¬ hasSufficientTime st m now then scanGo st now acc rest
    else
      let yn := extractTokens m
      if ¬ strTruthy yn.1 || ¬ strTruthy yn.2 then scanGo st now acc rest
      else
        let st' := { st with
          activeMarkets := st.activeMarkets ++ [(m.id, m)]
          marketTokens := st.marketTokens ++ [(m.id, yn)] }
        let acc' := acc ++ [m]
        if st.maxMarkets ≤ st'.activeMarkets.length then (st', acc')
        else scanGo st' now acc' rest

/-- `MultiMarketScanner.scan_markets()` on a catalog fetch that returned
`catalog`; yields the updated scanner and the list of newly registered
markets. -/
def scanMarkets (st : Scanner) (catalog : List Market) (now : ℤ) :
    Scanner × List Market :=
  let (st', newMarkets) := scanGo st now [] catalog
  ({ st' with lastScanTime := now }, newMarkets)

/-- Whether `_cleanup_closed_markets` classifies `m` as closed at `now`
(`end_time` truthy and `end_time - now <= 0`). -/
def marketClosed (m : Market) (now : ℤ) : Bool :=
  match getEndTimestamp m with
  | none => false
  | some e => if e = 0 then false else decide (e - now ≤ 0)

/-- `MultiMarketScanner._cleanup_closed_markets()`: collect the closed ids,
then delete each from `active_markets` and (when present) `market_tokens`. -/
def cleanupClosedMarkets (st : Scanner) (now : ℤ) : Scanner :=
  let closedIds := (st.activeMarkets.filter (fun p => marketClosed p.2 now)).map Prod.fst
  { st with
    activeMarkets := st.activeMarkets.filter (fun p => decide (p.1 ∉ closedIds))
    marketTokens := st.marketTokens.filter (fun p => decide (p.1 ∉ closedIds)) }

/-- `MultiMarketScanner.get_market_tokens(market_id)`. -/
def getMarketTokens (st : Scanner) (marketId : String) :
    Option (Option String × Option String) :=
  st.marketTokens.lookup marketId

/-- `MultiMarketScanner.get_market_by_id(market_id)`. -/
def getMarketById (st : Scanner) (marketId : String) : Option Market :=
  st.activeMarkets.lookup marketId

/-- One registry-mutating scanner operation: a `scan_markets` call on some
catalog response, or a `_cleanup_closed_markets` pass. -/
inductive ScanOp where
  | scan (catalog : List Market) (now : ℤ)
  | cleanup (now : ℤ)

/-- Run a sequence of scan / cleanup operations. -/
def runScanner (st : Scanner) : List ScanOp → Scanner
  | [] => st
  | ScanOp.scan catalog now :: rest => runScanner (scanMarkets st catalog now).1 rest
  | ScanOp.cleanup now :: rest => runScanner (cleanupClosedMarkets st now) rest

end MarketScannerM

namespace WebSocketManagerM

/-- `ConnectionMode` of `src/core/websocket_manager.py`. -/
inductive ConnMode where
  | websocket
  | restPolling
  | disconnected
  deriving Repr, DecidableEq

/-- The connection-relevant mutable state of `WebSocketManager`: mode,
running flag, whether `self.ws` is a live (non-closed) socket, the
reconnection counter, the subscription set, and whether the
`_websocket_loop` task is still alive. -/
structure WsManager where
  maxReconnectAttempts : ℕ
  mode : ConnMode
  running : Bool
  wsOpen : Bool
  reconnectAttempts : ℕ
  subscribedMarkets : List String
  wsLoopAlive : Bool
  deriving Repr, DecidableEq

/-- `WebSocketManager(...)` before `start()`. -/
def mkWsManager (maxReconnectAttempts : ℕ) : WsManager :=
  { maxReconnectAttempts := maxReconnectAttempts
    mode := ConnMode.disconnected
    running := false
    wsOpen := false
    reconnectAttempts := 0
    subscribedMarkets := []
    wsLoopAlive := false }

/-- Externally visible transitions of the manager.  `loopIterClosed ok` is
one `_websocket_loop` iteration that finds the socket absent/closed, with
`ok` the outcome of the `_try_websocket_connection()` it may attempt;
`loopIterMessage` is an iteration that receives a TEXT frame (metrics and
callback only); `serverClose` is an iteration whose received frame is
CLOSED/ERROR, which breaks out of the loop; `wsDrop` is the underlying
socket silently becoming closed (so the next loop iteration enters the
reconnection path). -/
inductive WsEvent where
  | startCall (ok : Bool)
  | stopCall
  | subscribe (tokenId : String)
  | unsubscribe (tokenId : String)
  | loopIterClosed (ok : Bool)
  | loopIterMessage
  | serverClose
  | wsDrop
  deriving Repr, DecidableEq

/-- One step of the manager, following the source of `start`, `stop`,
`subscribe_market`, `unsubscribe_market` and `_websocket_loop`. -/
def wsStep (s : WsManager) : WsEvent → WsManager
  | WsEvent.startCall ok =>
    if s.running then s
    else if ok then
      { s with running := true, mode := ConnMode.websocket,
               wsOpen := true, wsLoopAlive := true }
    else
      { s with running := true, mode := ConnMode.restPolling,
               wsOpen := false, wsLoopAlive := false }
  | WsEvent.stopCall =>
    { s with running := false, mode := ConnMode.disconnected,
             wsOpen := false, wsLoopAlive := false }
  | WsEvent.subscribe t =>
    if t ∈ s.subscribedMarkets then s
    else { s with subscribedMarkets := t :: s.subscribedMarkets }
  | WsEvent.unsubscribe t =>
    if t ∉ s.subscribedMarkets then s
    else { s with subscribedMarkets := s.subscribedMarkets.filter (fun x => x ≠ t) }
  | WsEvent.loopIterClosed ok =>
    if s.running && s.wsLoopAlive && !s.wsOpen then
      if s.maxReconnectAttempts ≤ s.reconnectAttempts then
        { s with mode := ConnMode.restPolling, wsLoopAlive := false }
      else
        let s1 := { s with reconnectAttempts := s.reconnectAttempts + 1 }
        if ok then { s1 with wsOpen := true, reconnectAttempts := 0 }
        else s1
    else s
  | WsEvent.loopIterMessage => s
  | WsEvent.serverClose =>
    if s.running && s.wsLoopAlive && s.wsOpen then
      { s with wsOpen := false, wsLoopAlive := false }
    else s
  | WsEvent.wsDrop =>
    if s.wsOpen then { s with wsOpen := false } else s

/-- Run a sequence of manager events. -/
def wsRun (s : WsManager) (evs : List WsEvent) : WsManager :=
  evs.foldl wsStep s

end WebSocketManagerM

namespace OrchestratorM

open MarketScannerM (strIn)

/-- A pluggable strategy as the orchestrator sees it: its Python class name
and its optional `name` attribute (used by `_get_strategy_key`). -/
structure Strategy where
  className : String
  name : Option String
  deriving Repr, DecidableEq

/-- One entry of the `opportunities` list built in the scan phase of
`StrategyOrchestrator.run_cycle`: a strategy together with the (opaque)
signal it produced. -/
structure Opp where
  strategy : Strategy
  signal : ℕ
  deriving Repr, DecidableEq

/-- `StrategyOrchestrator._get_strategy_key(strategy)`. -/
def getStrategyKey (st : Strategy) : String :=
  let cn := st.className
  if strIn "Maker" cn then "maker"
  else if strIn "Probability" cn then "probability"
  else if strIn "Latency" cn then "latency"
  else if strIn "ML" cn || strIn "Pattern" cn then "ml_pattern"
  else
    match st.name with
    | some n =>
      if strIn "Maker" n then "maker"
      else if strIn "Probability" n then "probability"
      else if strIn "Latency" n then "latency"
      else if strIn "ML" n || strIn "Pattern" n then "ml_pattern"
      else "maker"
    | none => "maker"

/-- The fixed `priority_order` list of `run_cycle` phase 2. -/
def priorityOrder : List String :=
  ["latency", "probability", "maker", "ml_pattern"]

/-- `self.capital_allocated.get(strategy_key, 0)`. -/
def allocGet (alloc : List (String × ℚ)) (key : String) : ℚ :=
  (alloc.lookup key).getD 0

/-- Phase 2 of `StrategyOrchestrator.run_cycle`: for each priority key in
order, for each scanned opportunity with that key, invoke
`strategy.execute_trade(signal)` when the strategy's allocated capital is
positive.  Returns the opportunities whose execute was invoked, in
invocation order.  `run_cycle` consults no ConnectionPool state here and
performs no `record_success`/`record_error` call. -/
def executedTrades (opps : List Opp) (alloc : List (String × ℚ)) : List Opp :=
  priorityOrder.foldl
    (fun acc k => acc ++ opps.filter
      (fun o => decide (getStrategyKey o.strategy = k) && decide (0 < allocGet alloc k)))
    []

end OrchestratorM

namespace Instances

open SpikeDetectorM ConnectionPoolM MarketScannerM WebSocketManagerM OrchestratorM

/-- Detector holding the price history of the repository's own
`test_detect_spike_up` (`src/tests/test_spike_detector.py`): `min_move=150`,
window `[3,10]`, `cooldown_seconds=0`, prices 50000, 50050, 50100, 50200 at
seconds 0, 1, 2, 5 past a base time of 1000. -/
def testUpDetector : Detector :=
  addPrice (addPrice (addPrice (addPrice (mkDetector 150 3 10 0 100)
    50000 1000) 50050 1001) 50100 1002) 50200 1005

/-- Detector of the spec's scenario (claim C4): `min_move=150`, window
`[3,10]`, `cooldown=30`, samples `(t=0,50000)`, `(t=1,50050)`,
`(t=5,50250)`. -/
def scenarioDetector : Detector :=
  addPrice (addPrice (addPrice (mkDetector 150 3 10 30 100)
    50000 0) 50050 1) 50250 5

/-- A catalog market passing every scanner filter: matches keyword "btc",
expires far in the future, and has resolvable YES/NO tokens. -/
def candidateMarket (ident : String) : Market :=
  { id := ident
    question := "BTC up or down in 5min?"
    description := "short BTC market"
    slug := "btc-5min"
    endDateIso := some 100000
    tokens := [{ outcome := "Yes", tokenId := some "yes-token" },
               { outcome := "No", tokenId := some "no-token" }]
    clobTokenIds := [] }

/-- A scanner with capacity 2 that has already registered markets A and B
(reached by two prior scans), as in the spec's capacity scenario. -/
def scannerAtCapacity : Scanner :=
  (scanMarkets (mkScanner ["btc"] [] 2 10 120)
    [candidateMarket "A", candidateMarket "B"] 0).1

/-- A pool with `error_threshold = 1` that opened its circuit at time 0 (one
`record_error` call from the fresh state). -/
def poolOpenedAtZero : Pool :=
  recordError (mkPool 200 1 60) "ws" 0

/-- A manager (max 2 reconnect attempts) that started in streaming mode and
then silently lost its socket: the next loop iterations take the
reconnection path. -/
def wsDisconnected : WsManager :=
  wsStep (wsStep (mkWsManager 2) (WsEvent.startCall true)) WsEvent.wsDrop

/-- The latency-arbitrage strategy as the orchestrator sees it. -/
def latencyStrategy : Strategy :=
  { className := "LatencyArbitrageStrategy", name := some "Latency Arbitrage" }

/-- The legacy maker strategy as the orchestrator sees it. -/
def makerStrategy : Strategy :=
  { className := "MakerStrategy", name := none }

/-- A capital-allocation table giving both strategies a positive share. -/
def demoAlloc : List (String × ℚ) :=
  [("latency", 100), ("maker", 50)]

end Instances

namespace Claims

open SpikeDetectorM ConnectionPoolM MarketScannerM WebSocketManagerM OrchestratorM Instances

/-- Structural behaviour of one `detect_spike` call: either nothing is
emitted and the state is unchanged, or the call is outside the cooldown and
the state records the wall-clock time of the call as `last_spike_time`. -/
lemma detectSpike_cases (d : Detector) (now : ℤ) :
    detectSpike d now = (none, d) ∨
    (d.cooldownSeconds ≤ now - d.lastSpikeTime ∧
      ∃ info d2, detectSpike d now = (some info, d2) ∧
        d2.lastSpikeTime = now ∧ d2.cooldownSeconds = d.cooldownSeconds) := by
  unfold detectSpike
  split
  · exact Or.inl rfl
  next hcool =>
    split
    · exact Or.inl rfl
    · dsimp only
      split
      · exact Or.inl rfl
      · split
        · exact Or.inr ⟨by omega, _, _, rfl, rfl, rfl⟩
        · exact Or.inl rfl

/-- Unfolding `runDetector` across a non-emitting `detect_spike` call. -/
lemma runDetector_det_none (d d2 : Detector) (now : ℤ) (rest : List DEvent)
    (h : detectSpike d now = (none, d2)) :
    runDetector d (DEvent.det now :: rest) = runDetector d2 rest := by
  simp only [runDetector, h]

/-- Unfolding `runDetector` across an emitting `detect_spike` call. -/
lemma runDetector_det_some (d d2 : Detector) (now : ℤ) (info : SpikeInfo)
    (rest : List DEvent) (h : detectSpike d now = (some info, d2)) :
    runDetector d (DEvent.det now :: rest) =
      ((runDetector d2 rest).1, (now, info) :: (runDetector d2 rest).2) := by
  rcases hr : runDetector d2 rest with ⟨dEnd, out⟩
  simp only [runDetector, h, hr]

/-- `add_price` does not touch the spike bookkeeping. -/
lemma addPrice_lastSpikeTime (d : Detector) (p ts : ℤ) :
    (addPrice d p ts).lastSpikeTime = d.lastSpikeTime ∧
    (addPrice d p ts).cooldownSeconds = d.cooldownSeconds := ⟨rfl, rfl⟩

/-- Invariant of a detector run: with a nonnegative cooldown, every emitted
event's detect-call time is at least one cooldown after the detector's
`last_spike_time`, and the emission times are pairwise at least one cooldown
apart. -/
lemma runDetector_sep (cd : ℤ) (hcd : 0 ≤ cd) (evs : List DEvent) :
    ∀ d : Detector, d.cooldownSeconds = cd →
    (∀ x ∈ (runDetector d evs).2, cd ≤ x.1 - d.lastSpikeTime) ∧
    ((runDetector d evs).2).Pairwise (fun a b => cd ≤ b.1 - a.1) := by
  induction evs with
  | nil => intro d _; simp [runDetector]
  | cons e rest ih =>
    intro d hd
    cases e with
    | add p ts =>
      have hrun : runDetector d (DEvent.add p ts :: rest) =
          runDetector (addPrice d p ts) rest := rfl
      have h1 := ih (addPrice d p ts) ((addPrice_lastSpikeTime d p ts).2.trans hd)
      rw [hrun]
      refine ⟨fun x hx => ?_, h1.2⟩
      have := h1.1 x hx
      rw [(addPrice_lastSpikeTime d p ts).1] at this
      exact this
    | det now =>
      rcases detectSpike_cases d now with heq | ⟨hcool, info, d2, heq, hlast, hcd2⟩
      · rw [runDetector_det_none d d now rest heq]
        exact ih d hd
      · have h1 := ih d2 (hcd2.trans hd)
        rw [runDetector_det_some d d2 now info rest heq]
        rw [hd] at hcool
        constructor
        · intro x hx
          rcases List.mem_cons.mp hx with hx | hx
          · subst hx; exact hcool
          · have hx1 := h1.1 x hx
            rw [hlast] at hx1
            omega
        · refine List.Pairwise.cons (fun x hx => ?_) h1.2
          have hx1 := h1.1 x hx
          rw [hlast] at hx1
          exact hx1

/-- C1: claim — detect() (outside the cooldown) returns a SpikeEvent iff
SOME pair of samples lies within the time-window band with abs delta at
least `min_move`, independently of which pair witnesses it.  The code
contradicts this (and its own test `test_detect_spike_up`, which asserts a
spike for exactly this history): at the test history an in-band pair with
delta 200 >= 150 exists, yet `detect_spike` returns None because the
backward scan anchors on the first in-band sample (3 s before the newest),
whose delta is only 100. -/
theorem detect_missing_spike_on_test_history :
    (detectSpike testUpDetector 1005).1 = none ∧
    specInBandPairExists testUpDetector = true ∧
    testUpDetector.cooldownSeconds ≤ 1005 - testUpDetector.lastSpikeTime :=
  ⟨rfl, rfl, by decide⟩

/-- C4: claim — on samples (0,50000), (1,50050), (5,50250) with
min_move=150, window [3,10], cooldown 30, detect() returns an "up" spike of
magnitude 250 against the t=0 sample.  The code instead emits an "up" spike
of magnitude 200 anchored on the t=1 sample (old_price 50050): the backward
scan stops at the first prior sample whose age (4 s) is in band.  The
follow-up sample at t=6 emits no second event (cooldown), as claimed.
(The detect calls are made at wall-clock times 100 and 101, clearing the
initial cooldown-since-epoch-0 guard as a live run would.) -/
theorem scenario_detect_anchor_divergence :
    ((detectSpike scenarioDetector 100).1).map SpikeInfo.direction = some "up" ∧
    ((detectSpike scenarioDetector 100).1).map SpikeInfo.priceChange = some 200 ∧
    ((detectSpike scenarioDetector 100).1).map SpikeInfo.oldPrice = some 50050 ∧
    ((detectSpike scenarioDetector 100).1).map SpikeInfo.detectionTime = some 5 ∧
    (detectSpike (addPrice (detectSpike scenarioDetector 100).2 50300 6) 101).1
      = none :=
  ⟨rfl, rfl, rfl, rfl, rfl⟩

/-- C5 counterexample: two detect() calls 40 s of wall-clock time apart on
an unchanged 2-sample history each re-emit the same spike, so two
SpikeEvents carry identical `detection_time` fields (both 5) — closer than
the 30 s cooldown, refuting the claimed invariant over the events'
`detection_time` fields. -/
theorem cooldown_detection_time_violation :
    (((runDetector (mkDetector 150 3 10 30 100)
        [DEvent.add 50000 0, DEvent.add 50200 5,
         DEvent.det 100, DEvent.det 140]).2).map
      (fun x => x.2.detectionTime)) = [5, 5] ∧
    ¬ ((30 : ℤ) ≤ 5 - 5) :=
  ⟨rfl, by decide⟩

/-- C5 amended: the cooldown separates the wall-clock times of the
detect_spike() calls that emit events — for every sequence of add_price /
detect_spike calls on a detector with nonnegative cooldown, the emitted
events' detect-call times are pairwise at least `cooldown_seconds` apart
(the `detection_time` field, which copies the newest sample's timestamp, is
not so separated). -/
theorem cooldown_separates_emission_times (d : Detector) (evs : List DEvent)
    (hcd : 0 ≤ d.cooldownSeconds) :
    ((runDetector d evs).2).Pairwise
      (fun a b => d.cooldownSeconds ≤ b.1 - a.1) :=
  (runDetector_sep d.cooldownSeconds hcd evs d rfl).2

/-- Witness for the C5 amended theorem at the counterexample's run: the two
emissions at wall-clock times 100 and 140 are at least 30 s apart. -/
theorem cooldown_separates_emission_times_witness :
    0 ≤ (mkDetector 150 3 10 30 100).cooldownSeconds ∧
    (((runDetector (mkDetector 150 3 10 30 100)
        [DEvent.add 50000 0, DEvent.add 50200 5,
         DEvent.det 100, DEvent.det 140]).2).Pairwise
      (fun a b => (mkDetector 150 3 10 30 100).cooldownSeconds ≤ b.1 - a.1)) :=
  ⟨by decide,
    cooldown_separates_emission_times (mkDetector 150 3 10 30 100)
      [DEvent.add 50000 0, DEvent.add 50200 5, DEvent.det 100, DEvent.det 140]
      (by decide)⟩

/-- Effect of one `record_error` call on a pool whose circuit is not open:
the global error count rises by one, and the state becomes CircuitOpen or
Degraded according to whether the count has reached the threshold. -/
lemma recordError_spec (p : Pool) (name : String) (now : ℤ)
    (h1 : p.state ≠ ConnState.circuitOpen) :
    (recordError p name now).errorCount = p.errorCount + 1 ∧
    (recordError p name now).errorThreshold = p.errorThreshold ∧
    (recordError p name now).state =
      (if p.errorThreshold ≤ p.errorCount + 1 then ConnState.circuitOpen
       else ConnState.degraded) := by
  unfold recordError updateState openCircuit
  dsimp only
  repeat' split
  all_goals simp_all

/-- Driving the error count up to the threshold by consecutive
`record_error` calls opens the circuit. -/
lemma errors_reach_threshold (calls : List (String × ℤ)) :
    ∀ p : Pool, p.state ≠ ConnState.circuitOpen →
    p.errorCount + calls.length = p.errorThreshold →
    p.errorCount < p.errorThreshold →
    (calls.foldl (fun s c => recordError s c.1 c.2) p).state =
      ConnState.circuitOpen := by
  induction calls with
  | nil => intro p _ hsum hlt; simp at hsum; omega
  | cons c rest ih =>
    intro p hstate hsum hlt
    obtain ⟨hcount, hthr, hst⟩ := recordError_spec p c.1 c.2 hstate
    by_cases hreach : p.errorThreshold ≤ p.errorCount + 1
    · have hrest : rest.length = 0 := by simp at hsum; omega
      have hopen : (recordError p c.1 c.2).state = ConnState.circuitOpen := by
        rw [hst, if_pos hreach]
      rcases List.eq_nil_of_length_eq_zero hrest with rfl
      simpa using hopen
    · have hdeg : (recordError p c.1 c.2).state = ConnState.degraded := by
        rw [hst, if_neg hreach]
      rw [List.foldl_cons]
      refine ih (recordError p c.1 c.2) ?_ ?_ ?_
      · rw [hdeg]; intro hx; cases hx
      · rw [hcount, hthr]; simp at hsum ⊢; omega
      · rw [hcount, hthr]; omega

/-- C6: starting from the Healthy state with a zero error counter, a run of
`error_threshold` consecutive `record_error` calls (at arbitrary connection
names and wall-clock times, with no intervening `record_success`) leaves the
pool in CircuitOpen, and `can_execute()` then returns false. -/
theorem error_threshold_opens_circuit (calls : List (String × ℤ)) (p : Pool)
    (hstate : p.state = ConnState.healthy) (hcount : p.errorCount = 0)
    (hlen : calls.length = p.errorThreshold) (hthr : 1 ≤ p.errorThreshold) :
    (calls.foldl (fun s c => recordError s c.1 c.2) p).state =
      ConnState.circuitOpen ∧
    canExecute (calls.foldl (fun s c => recordError s c.1 c.2) p) = false := by
  have hopen := errors_reach_threshold calls p
    (by rw [hstate]; intro hx; cases hx) (by omega) (by omega)
  exact ⟨hopen, by simp [canExecute, hopen]⟩

/-- Witness for C6: the default pool (threshold 5) after five record_error
calls. -/
theorem error_threshold_opens_circuit_witness :
    ((mkPool 200 5 60).state = ConnState.healthy ∧
      (mkPool 200 5 60).errorCount = 0 ∧
      ([("a", (0 : ℤ)), ("a", 1), ("a", 2), ("a", 3), ("a", 4)].length =
        (mkPool 200 5 60).errorThreshold) ∧
      1 ≤ (mkPool 200 5 60).errorThreshold) ∧
    (([("a", (0 : ℤ)), ("a", 1), ("a", 2), ("a", 3), ("a", 4)].foldl
        (fun s c => recordError s c.1 c.2) (mkPool 200 5 60)).state =
      ConnState.circuitOpen ∧
    canExecute ([("a", (0 : ℤ)), ("a", 1), ("a", 2), ("a", 3), ("a", 4)].foldl
        (fun s c => recordError s c.1 c.2) (mkPool 200 5 60)) = false) :=
  ⟨⟨rfl, rfl, rfl, by decide⟩,
    error_threshold_opens_circuit _ _ rfl rfl rfl (by decide)⟩

/-- C7 counterexample: a pool that opened its circuit at time 0 with
`circuit_timeout = 60`.  At wall-clock time 1000 — far beyond the timeout —
the state is still CircuitOpen and `can_execute()` still returns false,
because `can_execute` is a pure read of the stored state and the timeout
transition only runs inside `_update_state`, i.e. on the next record call:
no automatic transition exists. -/
theorem circuit_open_persists_without_record_call :
    poolOpenedAtZero.state = ConnState.circuitOpen ∧
    poolOpenedAtZero.circuitTimeout < 1000 - poolOpenedAtZero.circuitOpenedAt ∧
    canExecute poolOpenedAtZero = false :=
  ⟨rfl, by decide, rfl⟩

/-- C7 amended: once more than `circuit_timeout` seconds have elapsed since
the circuit opened, the NEXT `record_success` or `record_error` call (not
`can_execute` itself, which is a pure read) moves the state from CircuitOpen
to Degraded and resets the global error counter to zero, after which
`can_execute()` returns true. -/
theorem circuit_timeout_recovery_on_next_record (p : Pool) (name : String)
    (now : ℤ) (hopen : p.state = ConnState.circuitOpen)
    (htime : p.circuitTimeout < now - p.circuitOpenedAt)
    (hthr : 1 ≤ p.errorThreshold) :
    ((recordSuccess p name now).state = ConnState.degraded ∧
      (recordSuccess p name now).errorCount = 0 ∧
      canExecute (recordSuccess p name now) = true) ∧
    ((recordError p name now).state = ConnState.degraded ∧
      (recordError p name now).errorCount = 0 ∧
      canExecute (recordError p name now) = true) := by
  constructor
  · unfold recordSuccess updateState openCircuit canExecute
    dsimp only
    repeat' split
    all_goals simp_all
  · unfold recordError updateState openCircuit canExecute
    dsimp only
    repeat' split
    all_goals simp_all

/-- Witness for the C7 amended theorem on the concrete opened pool at time
1000. -/
theorem circuit_timeout_recovery_on_next_record_witness :
    (poolOpenedAtZero.state = ConnState.circuitOpen ∧
      poolOpenedAtZero.circuitTimeout < 1000 - poolOpenedAtZero.circuitOpenedAt ∧
      1 ≤ poolOpenedAtZero.errorThreshold) ∧
    (((recordSuccess poolOpenedAtZero "ws" 1000).state = ConnState.degraded ∧
      (recordSuccess poolOpenedAtZero "ws" 1000).errorCount = 0 ∧
      canExecute (recordSuccess poolOpenedAtZero "ws" 1000) = true) ∧
     ((recordError poolOpenedAtZero "ws" 1000).state = ConnState.degraded ∧
      (recordError poolOpenedAtZero "ws" 1000).errorCount = 0 ∧
      canExecute (recordError poolOpenedAtZero "ws" 1000) = true)) :=
  ⟨⟨rfl, by decide, by decide⟩,
    circuit_timeout_recovery_on_next_record poolOpenedAtZero "ws" 1000
      rfl (by decide) (by decide)⟩

/-- A key is found by association-list lookup exactly when it occurs among
the stored keys. -/
lemma lookup_isSome_iff {β : Type _} (l : List (String × β)) (a : String) :
    (l.lookup a).isSome = true ↔ a ∈ l.map Prod.fst := by
  induction l with
  | nil => simp [List.lookup]
  | cons hd tl ih =>
    by_cases h : a = hd.1
    · simp [List.lookup, h]
    · have hb : (a == hd.1) = false := beq_false_of_ne h
      simp [List.lookup, hb, ih, h]

/-- The two registries' key lists stay equal: invariant over `scanGo`. -/
lemma scanGo_keys (catalog : List Market) :
    ∀ (st : Scanner) (now : ℤ) (acc : List Market),
    st.activeMarkets.map Prod.fst = st.marketTokens.map Prod.fst →
    (scanGo st now acc catalog).1.activeMarkets.map Prod.fst =
      (scanGo st now acc catalog).1.marketTokens.map Prod.fst := by
  induction catalog with
  | nil => intro st now acc h; simpa [scanGo] using h
  | cons m rest ih =>
    intro st now acc h
    unfold scanGo
    split
    · exact ih st now acc h
    split
    · exact ih st now acc h
    split
    · exact ih st now acc h
    dsimp only
    split
    · exact ih st now acc h
    split
    · simpa using h
    · exact ih _ now _ (by simpa using h)

/-- The two registries' key lists stay equal: invariant over cleanup. -/
lemma cleanup_keys (st : Scanner) (now : ℤ)
    (h : st.activeMarkets.map Prod.fst = st.marketTokens.map Prod.fst) :
    (cleanupClosedMarkets st now).activeMarkets.map Prod.fst =
      (cleanupClosedMarkets st now).marketTokens.map Prod.fst := by
  unfold cleanupClosedMarkets
  dsimp only
  rw [show (fun (p : String × Market) =>
        decide (p.1 ∉ (st.activeMarkets.filter
          (fun q => marketClosed q.2 now)).map Prod.fst)) =
      ((fun a => decide (a ∉ (st.activeMarkets.filter
          (fun q => marketClosed q.2 now)).map Prod.fst)) ∘ Prod.fst) from rfl]
  rw [show (fun (p : String × (Option String × Option String)) =>
        decide (p.1 ∉ (st.activeMarkets.filter
          (fun q => marketClosed q.2 now)).map Prod.fst)) =
      ((fun a => decide (a ∉ (st.activeMarkets.filter
          (fun q => marketClosed q.2 now)).map Prod.fst)) ∘ Prod.fst) from rfl]
  rw [← List.filter_map, ← List.filter_map, h]

/-- The two registries' key lists stay equal along any operation run. -/
lemma runScanner_keys (ops : List ScanOp) :
    ∀ st : Scanner,
    st.activeMarkets.map Prod.fst = st.marketTokens.map Prod.fst →
    (runScanner st ops).activeMarkets.map Prod.fst =
      (runScanner st ops).marketTokens.map Prod.fst := by
  induction ops with
  | nil => intro st h; exact h
  | cons op rest ih =>
    intro st h
    cases op with
    | scan catalog now =>
      exact ih _ (by simpa [scanMarkets] using scanGo_keys catalog st now [] h)
    | cleanup now => exact ih _ (cleanup_keys st now h)

/-- C10: starting from a fresh scanner, after any sequence of scan and
cleanup operations, `get_market_tokens(id)` returns a token pair exactly
when `get_market_by_id(id)` returns a market — every operation mutates
`active_markets` and `market_tokens` in lockstep. -/
theorem registries_same_domain (keywords excludeKeywords : List String)
    (maxMarkets : ℕ) (scanInterval minTimeRemaining : ℤ)
    (ops : List ScanOp) (marketId : String) :
    (getMarketTokens (runScanner
        (mkScanner keywords excludeKeywords maxMarkets scanInterval
          minTimeRemaining) ops) marketId).isSome = true ↔
    (getMarketById (runScanner
        (mkScanner keywords excludeKeywords maxMarkets scanInterval
          minTimeRemaining) ops) marketId).isSome = true := by
  have hkeys := runScanner_keys ops
    (mkScanner keywords excludeKeywords maxMarkets scanInterval
      minTimeRemaining) rfl
  rw [getMarketTokens, getMarketById, lookup_isSome_iff, lookup_isSome_iff,
    hkeys]

/-- C3 counterexample: a scanner with `max_markets = 2` already holding
markets A and B.  A `scan_markets()` call whose catalog offers a fresh
candidate C that matches every filter REGISTERS C and reports one new
market, driving the registry to size 3 > 2 — the capacity check
(`len >= max`) runs only AFTER a registration, so a scan started at
capacity admits one more entity, contradicting both the claimed invariant
and the claimed zero-new-entities scenario. -/
theorem scan_at_capacity_registers_extra :
    scannerAtCapacity.activeMarkets.length = 2 ∧
    scannerAtCapacity.maxMarkets = 2 ∧
    (scanMarkets scannerAtCapacity [candidateMarket "C"] 0).2.length = 1 ∧
    (scanMarkets scannerAtCapacity
      [candidateMarket "C"] 0).1.activeMarkets.length = 3 :=
  ⟨rfl, rfl, rfl, rfl⟩

/-- `scanGo` keeps the registry within capacity whenever it starts strictly
below capacity: each registration is followed by the `len >= max` break. -/
lemma scanGo_length (catalog : List Market) :
    ∀ (st : Scanner) (now : ℤ) (acc : List Market),
    st.activeMarkets.length < st.maxMarkets →
    (scanGo st now acc catalog).1.activeMarkets.length ≤ st.maxMarkets ∧
    (scanGo st now acc catalog).1.maxMarkets = st.maxMarkets := by
  induction catalog with
  | nil => intro st now acc h; exact ⟨Nat.le_of_lt h, rfl⟩
  | cons m rest ih =>
    intro st now acc h
    unfold scanGo
    split
    · exact ih st now acc h
    split
    · exact ih st now acc h
    split
    · exact ih st now acc h
    dsimp only
    split
    · exact ih st now acc h
    split
    next hbreak => exact ⟨by simpa using h, rfl⟩
    next hbreak =>
      refine (ih _ now _ ?_).imp (fun hx => by simpa using hx) (fun hx => hx)
      simpa using Nat.lt_of_not_le (by simpa using hbreak)

/-- C3 amended: the registry size never exceeds `max_markets` provided every
`scan_markets()` call starts strictly below capacity — which is how the
background `_scanning_loop` invokes it (it scans only when
`len(active_markets) < max_markets`).  A scan started AT capacity instead
registers one further matching candidate (see the counterexample), so the
unconditional invariant fails. -/
theorem scan_below_capacity_keeps_bound (st : Scanner) (catalog : List Market)
    (now : ℤ) (h : st.activeMarkets.length < st.maxMarkets) :
    (scanMarkets st catalog now).1.activeMarkets.length ≤ st.maxMarkets := by
  have := (scanGo_length catalog st now [] h).1
  simpa [scanMarkets] using this

/-- Witness for the C3 amended theorem: scanning one candidate from an empty
two-slot scanner stays within capacity. -/
theorem scan_below_capacity_keeps_bound_witness :
    (mkScanner ["btc"] [] 2 10 120).activeMarkets.length <
      (mkScanner ["btc"] [] 2 10 120).maxMarkets ∧
    (scanMarkets (mkScanner ["btc"] [] 2 10 120)
      [candidateMarket "A"] 0).1.activeMarkets.length ≤
      (mkScanner ["btc"] [] 2 10 120).maxMarkets :=
  ⟨by decide,
    scan_below_capacity_keeps_bound (mkScanner ["btc"] [] 2 10 120)
      [candidateMarket "A"] 0 (by decide)⟩

/-- Every event other than `stop()` preserves "downgraded to polling":
once the mode is REST_POLLING with the websocket loop gone and the manager
running, no transition restores streaming (a second `start()` call returns
immediately because the manager is already running). -/
lemma wsStep_preserves_polling (s : WsManager) (e : WsEvent)
    (he : e ≠ WsEvent.stopCall) (h1 : s.mode = ConnMode.restPolling)
    (h2 : s.wsLoopAlive = false) (h3 : s.running = true) :
    (wsStep s e).mode = ConnMode.restPolling ∧
    (wsStep s e).wsLoopAlive = false ∧ (wsStep s e).running = true := by
  cases e with
  | startCall ok => simp [wsStep, h1, h2, h3]
  | stopCall => exact absurd rfl he
  | subscribe t => simp only [wsStep]; split <;> exact ⟨h1, h2, h3⟩
  | unsubscribe t => simp only [wsStep]; split <;> exact ⟨h1, h2, h3⟩
  | loopIterClosed ok => simp [wsStep, h1, h2, h3]
  | loopIterMessage => exact ⟨h1, h2, h3⟩
  | serverClose => simp [wsStep, h1, h2, h3]
  | wsDrop => simp only [wsStep]; split <;> exact ⟨h1, h2, h3⟩

/-- Run form of `wsStep_preserves_polling`. -/
lemma wsRun_preserves_polling (evs : List WsEvent) :
    ∀ s : WsManager, WsEvent.stopCall ∉ evs →
    s.mode = ConnMode.restPolling → s.wsLoopAlive = false → s.running = true →
    (wsRun s evs).mode = ConnMode.restPolling ∧
    (wsRun s evs).wsLoopAlive = false ∧ (wsRun s evs).running = true := by
  induction evs with
  | nil => intro s _ h1 h2 h3; exact ⟨h1, h2, h3⟩
  | cons e rest ih =>
    intro s hstop h1 h2 h3
    have hne : e ≠ WsEvent.stopCall := fun hx => hstop (hx ▸ List.mem_cons_self e rest)
    obtain ⟨g1, g2, g3⟩ := wsStep_preserves_polling s e hne h1 h2 h3
    exact ih (wsStep s e) (fun hx => hstop (List.mem_cons_of_mem e hx)) g1 g2 g3

/-- A closed socket plus repeatedly failing reconnection attempts drives the
manager into REST_POLLING: the loop increments the attempt counter on each
failure and, once it reaches `max_reconnect_attempts`, downgrades and
returns. -/
lemma wsFails_downgrade (k : ℕ) :
    ∀ s : WsManager, s.running = true → s.wsLoopAlive = true →
    s.wsOpen = false → s.reconnectAttempts ≤ s.maxReconnectAttempts →
    s.maxReconnectAttempts + 1 ≤ s.reconnectAttempts + k →
    (wsRun s (List.replicate k (WsEvent.loopIterClosed false))).mode =
      ConnMode.restPolling ∧
    (wsRun s (List.replicate k (WsEvent.loopIterClosed false))).wsLoopAlive
      = false ∧
    (wsRun s (List.replicate k (WsEvent.loopIterClosed false))).running
      = true := by
  induction k with
  | zero => intro s _ _ _ hle hk; omega
  | succ k ih =>
    intro s h1 h2 h3 hle hk
    rw [List.replicate_succ]
    have hstep : wsRun s (WsEvent.loopIterClosed false ::
        List.replicate k (WsEvent.loopIterClosed false)) =
        wsRun (wsStep s (WsEvent.loopIterClosed false))
          (List.replicate k (WsEvent.loopIterClosed false)) := rfl
    rw [hstep]
    by_cases hmax : s.maxReconnectAttempts ≤ s.reconnectAttempts
    · have hdown : wsStep s (WsEvent.loopIterClosed false) =
          { s with mode := ConnMode.restPolling, wsLoopAlive := false } := by
        simp [wsStep, h1, h2, h3, hmax]
      rw [hdown]
      exact wsRun_preserves_polling _ _
        (by simp [List.mem_replicate]) rfl rfl h1
    · have hfail : wsStep s (WsEvent.loopIterClosed false) =
          { s with reconnectAttempts := s.reconnectAttempts + 1 } := by
        simp [wsStep, h1, h2, h3, hmax]
      rw [hfail]
      exact ih _ h1 h2 h3 (by simpa using Nat.lt_of_not_le hmax)
        (by simp; omega)

/-- C8: if the manager is running with its socket closed and the
reconnection attempts all fail, the mode becomes (and, across any further
stop-free events, remains) REST_POLLING, while `subscribe_market` /
`unsubscribe_market` afterwards still add and remove token ids from the
subscription set. -/
theorem reconnect_exhaustion_downgrades_permanently (s : WsManager)
    (evs : List WsEvent) (t : String)
    (h1 : s.running = true) (h2 : s.wsLoopAlive = true) (h3 : s.wsOpen = false)
    (h4 : s.reconnectAttempts = 0) (hstop : WsEvent.stopCall ∉ evs) :
    (wsRun s (List.replicate (s.maxReconnectAttempts + 1)
        (WsEvent.loopIterClosed false))).mode = ConnMode.restPolling ∧
    (wsRun (wsRun s (List.replicate (s.maxReconnectAttempts + 1)
        (WsEvent.loopIterClosed false))) evs).mode = ConnMode.restPolling ∧
    t ∈ (wsStep (wsRun (wsRun s (List.replicate (s.maxReconnectAttempts + 1)
        (WsEvent.loopIterClosed false))) evs)
          (WsEvent.subscribe t)).subscribedMarkets ∧
    t ∉ (wsStep (wsRun (wsRun s (List.replicate (s.maxReconnectAttempts + 1)
        (WsEvent.loopIterClosed false))) evs)
          (WsEvent.unsubscribe t)).subscribedMarkets := by
  obtain ⟨g1, g2, g3⟩ := wsFails_downgrade (s.maxReconnectAttempts + 1) s
    h1 h2 h3 (by omega) (by omega)
  obtain ⟨f1, f2, f3⟩ := wsRun_preserves_polling evs _ hstop g1 g2 g3
  refine ⟨g1, f1, ?_, ?_⟩
  · simp only [wsStep]
    split
    next hmem => exact hmem
    next hmem => exact List.mem_cons_self t _
  · simp only [wsStep]
    split
    next hmem => exact hmem
    next hmem => simp [List.mem_filter]

/-- Witness for C8: a manager with 2 max attempts that lost its socket,
runs 3 failing loop iterations, then sees a subscribe and a message event. -/
theorem reconnect_exhaustion_downgrades_permanently_witness :
    (wsDisconnected.running = true ∧ wsDisconnected.wsLoopAlive = true ∧
      wsDisconnected.wsOpen = false ∧ wsDisconnected.reconnectAttempts = 0 ∧
      WsEvent.stopCall ∉ [WsEvent.subscribe "a", WsEvent.loopIterMessage]) ∧
    ((wsRun wsDisconnected (List.replicate (wsDisconnected.maxReconnectAttempts + 1)
        (WsEvent.loopIterClosed false))).mode = ConnMode.restPolling ∧
     (wsRun (wsRun wsDisconnected (List.replicate (wsDisconnected.maxReconnectAttempts + 1)
        (WsEvent.loopIterClosed false)))
        [WsEvent.subscribe "a", WsEvent.loopIterMessage]).mode = ConnMode.restPolling ∧
     "m1" ∈ (wsStep (wsRun (wsRun wsDisconnected
        (List.replicate (wsDisconnected.maxReconnectAttempts + 1)
          (WsEvent.loopIterClosed false)))
        [WsEvent.subscribe "a", WsEvent.loopIterMessage])
          (WsEvent.subscribe "m1")).subscribedMarkets ∧
     "m1" ∉ (wsStep (wsRun (wsRun wsDisconnected
        (List.replicate (wsDisconnected.maxReconnectAttempts + 1)
          (WsEvent.loopIterClosed false)))
        [WsEvent.subscribe "a", WsEvent.loopIterMessage])
          (WsEvent.unsubscribe "m1")).subscribedMarkets) :=
  ⟨⟨rfl, rfl, rfl, rfl, by decide⟩,
    reconnect_exhaustion_downgrades_permanently wsDisconnected
      [WsEvent.subscribe "a", WsEvent.loopIterMessage] "m1"
      rfl rfl rfl rfl (by decide)⟩

/-- C2 counterexample: `run_cycle`'s execute phase consults no
ConnectionPool state and records no outcome — with the pool's circuit open
(`can_execute() = false`), a latency signal with positive allocated capital
is still executed.  The `can_execute` gate and the
`record_success`/`record_error` feedback exist only in `bot_v2.py`'s
`_strategy_execution_loop` / `_execute_strategy_on_market`, which
`run_cycle` never calls. -/
theorem run_cycle_ignores_health_monitor :
    canExecute poolOpenedAtZero = false ∧
    executedTrades [{ strategy := latencyStrategy, signal := 0 }] demoAlloc =
      [{ strategy := latencyStrategy, signal := 0 }] :=
  ⟨rfl, rfl⟩

/-- `_get_strategy_key` always lands in the fixed priority list. -/
lemma getStrategyKey_mem_priorityOrder (st : Strategy) :
    getStrategyKey st ∈ priorityOrder := by
  unfold getStrategyKey priorityOrder
  rcases hn : st.name with _ | n <;> simp only [hn] <;> split_ifs <;> simp

/-- Membership in a fold that appends one chunk per key. -/
lemma mem_foldl_append {α β : Type _} (f : β → List α) (ks : List β)
    (x : α) : ∀ start : List α,
    (x ∈ ks.foldl (fun acc k => acc ++ f k) start ↔
      x ∈ start ∨ ∃ k ∈ ks, x ∈ f k) := by
  induction ks with
  | nil => intro start; simp
  | cons k ks ih =>
    intro start
    rw [List.foldl_cons, ih]
    simp [List.mem_append, or_assoc]

/-- C2 amended: in `run_cycle`'s execute phase, an opportunity's
`execute_trade` is invoked exactly when its strategy's allocated capital
(under its priority key) is positive — independent of any HealthMonitor
state, and with no outcome recording. -/
theorem executed_iff_capital_positive (opps : List Opp)
    (alloc : List (String × ℚ)) (o : Opp) :
    o ∈ executedTrades opps alloc ↔
      o ∈ opps ∧ 0 < allocGet alloc (getStrategyKey o.strategy) := by
  unfold executedTrades
  rw [mem_foldl_append]
  constructor
  · rintro (hx | ⟨k, _, hx⟩)
    · cases hx
    · rw [List.mem_filter] at hx
      obtain ⟨hmem, hcond⟩ := hx
      have := of_decide_eq_true (Bool.and_elim_left hcond)
      have hpos := of_decide_eq_true (Bool.and_elim_right hcond)
      exact ⟨hmem, this ▸ hpos⟩
  · rintro ⟨hmem, hpos⟩
    refine Or.inr ⟨getStrategyKey o.strategy,
      getStrategyKey_mem_priorityOrder o.strategy, ?_⟩
    rw [List.mem_filter]
    exact ⟨hmem, by simp [hpos]⟩

/-- C9: in any cycle whose scan phase produced both a latency-category
signal and a maker-category signal (in either discovery order), with both
categories positively funded, the execute phase invokes the latency
signal's execute strictly before the maker signal's. -/
theorem latency_executes_before_maker (opps : List Opp)
    (alloc : List (String × ℚ)) (o1 o2 : Opp)
    (h1 : getStrategyKey o1.strategy = "latency")
    (h2 : getStrategyKey o2.strategy = "maker")
    (m1 : o1 ∈ opps) (m2 : o2 ∈ opps)
    (a1 : 0 < allocGet alloc "latency") (a2 : 0 < allocGet alloc "maker") :
    ∃ i j : ℕ, i < j ∧
      (executedTrades opps alloc)[i]? = some o1 ∧
      (executedTrades opps alloc)[j]? = some o2 := by
  have hsplit : executedTrades opps alloc =
      ((opps.filter (fun o => decide (getStrategyKey o.strategy = "latency") &&
          decide (0 < allocGet alloc "latency")) ++
        opps.filter (fun o => decide (getStrategyKey o.strategy = "probability") &&
          decide (0 < allocGet alloc "probability"))) ++
        opps.filter (fun o => decide (getStrategyKey o.strategy = "maker") &&
          decide (0 < allocGet alloc "maker"))) ++
        opps.filter (fun o => decide (getStrategyKey o.strategy = "ml_pattern") &&
          decide (0 < allocGet alloc "ml_pattern")) := rfl
  obtain ⟨i, hiA, hgA⟩ := List.getElem_of_mem
    (show o1 ∈ opps.filter (fun o =>
        decide (getStrategyKey o.strategy = "latency") &&
        decide (0 < allocGet alloc "latency")) by
      rw [List.mem_filter]; exact ⟨m1, by simp [h1, a1]⟩)
  obtain ⟨k, hkC, hgC⟩ := List.getElem_of_mem
    (show o2 ∈ opps.filter (fun o =>
        decide (getStrategyKey o.strategy = "maker") &&
        decide (0 < allocGet alloc "maker")) by
      rw [List.mem_filter]; exact ⟨m2, by simp [h2, a2]⟩)
  refine ⟨i, (opps.filter (fun o =>
      decide (getStrategyKey o.strategy = "latency") &&
      decide (0 < allocGet alloc "latency"))).length +
    (opps.filter (fun o =>
      decide (getStrategyKey o.strategy = "probability") &&
      decide (0 < allocGet alloc "probability"))).length + k,
    by omega, ?_, ?_⟩
  · rw [hsplit]
    rw [List.getElem?_append_left (by simp [List.length_append]; omega)]
    rw [List.getElem?_append_left (by simp [List.length_append]; omega)]
    rw [List.getElem?_append_left hiA]
    rw [List.getElem?_eq_getElem hiA, hgA]
  · rw [hsplit]
    rw [List.getElem?_append_left (by simp [List.length_append]; omega)]
    rw [List.getElem?_append_right (by rw [List.length_append]; omega)]
    have hidx : (opps.filter (fun o =>
        decide (getStrategyKey o.strategy = "latency") &&
        decide (0 < allocGet alloc "latency"))).length +
      (opps.filter (fun o =>
        decide (getStrategyKey o.strategy = "probability") &&
        decide (0 < allocGet alloc "probability"))).length + k -
      ((opps.filter (fun o =>
        decide (getStrategyKey o.strategy = "latency") &&
        decide (0 < allocGet alloc "latency"))) ++
      (opps.filter (fun o =>
        decide (getStrategyKey o.strategy = "probability") &&
        decide (0 < allocGet alloc "probability")))).length = k := by
      rw [List.length_append]; omega
    rw [hidx]
    rw [List.getElem?_eq_getElem hkC, hgC]

/-- Witness for C9: the maker opportunity is discovered first, yet the
latency one executes first (indices 0 < 1 in the executed list). -/
theorem latency_executes_before_maker_witness :
    (getStrategyKey latencyStrategy = "latency" ∧
      getStrategyKey makerStrategy = "maker" ∧
      Opp.mk latencyStrategy 0 ∈
        [Opp.mk makerStrategy 1, Opp.mk latencyStrategy 0] ∧
      Opp.mk makerStrategy 1 ∈
        [Opp.mk makerStrategy 1, Opp.mk latencyStrategy 0] ∧
      0 < allocGet demoAlloc "latency" ∧ 0 < allocGet demoAlloc "maker") ∧
    (∃ i j : ℕ, i < j ∧
      (executedTrades [Opp.mk makerStrategy 1, Opp.mk latencyStrategy 0]
        demoAlloc)[i]? = some (Opp.mk latencyStrategy 0) ∧
      (executedTrades [Opp.mk makerStrategy 1, Opp.mk latencyStrategy 0]
        demoAlloc)[j]? = some (Opp.mk makerStrategy 1)) :=
  ⟨⟨rfl, rfl, by decide, by decide, by decide, by decide⟩,
    latency_executes_before_maker
      [Opp.mk makerStrategy 1, Opp.mk latencyStrategy 0] demoAlloc
      (Opp.mk latencyStrategy 0) (Opp.mk makerStrategy 1)
      rfl rfl (by decide) (by decide) (by decide) (by decide)⟩

end Claims
